import Mathlib

/-
Verification of the sqllogictest parser and runner.

The Go sources embedded here are:
  * parser/record.go   — Record / Condition data model, ShouldExecuteForEngine,
                         SortResults, IsHashResult / HashResult / NumResults,
                         ParseTestFile / parseRecord (line-oriented state machine)
  * logictest/runner.go — runTestFile / executeRecord / verifySchema /
                          verifyResults / verifyRows / verifyHash

Modelling conventions:
  * Strings are Lean `String`s; Go byte-wise string comparison agrees with
    code-point lexicographic comparison (UTF-8 preserves code-point order),
    which we implement explicitly as `strLtB`.
  * Go slices threaded through in-place sorts are modelled by explicit state
    passing: a function that sorts a slice in place returns the slice's final
    contents, which is what the caller's aliased slice holds afterwards.
  * Go panics inside the per-record execution boundary are modelled with
    `Except String`, the error being the panic message; `executeRecord`'s
    deferred `recover` turns them into a logged outcome, as in the source.
  * Go runtime panics during parsing (index out of range on `fields`) are not
    recovered anywhere in the source; they are modelled as `ParseErr.panicked`.
  * The `LineScanner` type is not part of the given sources.
    Modelled from the spec: §4.1 Line Source — a line-by-line reader with a
    monotonically increasing 1-based line counter.  We model it as the list of
    remaining lines together with the number of lines consumed so far.
  * The md5 digest used by `hashResults` is cryptographic and out of scope; it
    is threaded through as an explicit function parameter `md5f`.  `h.Write`
    on Go's md5 never returns an error, so the "Error hashing results" branch
    of verifyHash is dead and not modelled.
-/

set_option maxRecDepth 4000

/-! ## Go string primitives -/

/-- The ASCII white-space characters recognised by Go's `unicode.IsSpace`
(`strings.TrimSpace` / `strings.Fields`).  Inputs here are ASCII; the
additional Unicode space code points never occur in the modelled strings. -/
def goIsSpace (c : Char) : Bool :=
  c = ' ' || c = '\t' || c = '\n' || c = '\x0b' || c = '\x0c' || c = '\r'

/-- `isBlankLine` (record.go): `len(strings.TrimSpace(line)) == 0`, i.e. every
character of the line is white space. -/
def isBlankLine (line : String) : Bool :=
  line.data.all goIsSpace

/-- `commentRegex.ReplaceAllString(line, "$1")` for
`commentRegex = ([^#]*)#?.*`: the first match consumes the whole line and is
replaced by its prefix up to (excluding) the first '#'. -/
def stripComment (line : String) : String :=
  String.mk (line.data.takeWhile (fun c => c ≠ '#'))

/-- `strings.HasPrefix(line, "#")`: the line's first character (no trimming)
is '#'. -/
def startsWithHash (line : String) : Bool :=
  match line.data with
  | '#' :: _ => true
  | _ => false

/-- Splitter for `strings.Fields`: maximal runs of non-space characters. -/
def splitFields : List Char → List Char → List String
  | [], acc => if acc.isEmpty then [] else [String.mk acc.reverse]
  | c :: cs, acc =>
    if goIsSpace c then
      if acc.isEmpty then splitFields cs [] else String.mk acc.reverse :: splitFields cs []
    else
      splitFields cs (c :: acc)

/-- `strings.Fields` on a comment-stripped line. -/
def goFields (s : String) : List String :=
  splitFields s.data []

/-- Digit-string value; `none` as soon as a non-digit appears. -/
def digitsValAux : List Char → Nat → Option Nat
  | [], acc => some acc
  | c :: cs, acc =>
    if c.isDigit then digitsValAux cs (acc * 10 + (c.toNat - '0'.toNat)) else none

/-- `strconv.Atoi` with the error ignored, as in
`record.hashThreshold, _ = strconv.Atoi(fields[1])` and `NumResults`: the
parsed value on success, 0 on any syntax error.  (Go clamps on 64-bit
overflow; the modelled inputs are far below that range.) -/
def atoi (s : String) : Int :=
  match s.data with
  | [] => 0
  | '+' :: cs =>
    match (if cs.isEmpty then none else digitsValAux cs 0) with
    | some n => (n : Int)
    | none => 0
  | '-' :: cs =>
    match (if cs.isEmpty then none else digitsValAux cs 0) with
    | some n => -(n : Int)
    | none => 0
  | cs =>
    match digitsValAux cs 0 with
    | some n => (n : Int)
    | none => 0

/-! ## The hash-summary pattern

`hashRegex = (\d+) values hashing to ([0-9a-f]+)`, unanchored.  A match at a
position is a maximal non-empty digit run, the literal text
`" values hashing to "`, and a maximal non-empty lower-case-hex run; the
regex engine finds the leftmost match and, for ReplaceAll, every further
leftmost match after it. -/

def isHexChar (c : Char) : Bool :=
  c.isDigit || ('a' ≤ c && c ≤ 'f')

def hashLit : List Char := " values hashing to ".data

/-- Try to match the hash pattern at the start of `cs`; on success return the
digit group, the hex group and the suffix after the match. -/
def matchHashAt (cs : List Char) : Option (List Char × List Char × List Char) :=
  let ds := cs.takeWhile (fun c => c.isDigit)
  if ds.isEmpty then none
  else
    let after := cs.dropWhile (fun c => c.isDigit)
    if hashLit.isPrefixOf after then
      let afterLit := after.drop hashLit.length
      let hx := afterLit.takeWhile isHexChar
      if hx.isEmpty then none
      else some (ds, hx, afterLit.dropWhile isHexChar)
    else none

/-- Leftmost match of the hash pattern: text before the match, digit group,
hex group, text after the match. -/
def hashScan : List Char → Option (List Char × List Char × List Char × List Char)
  | [] => none
  | c :: cs =>
    match matchHashAt (c :: cs) with
    | some (ds, hx, rest) => some ([], ds, hx, rest)
    | none =>
      match hashScan cs with
      | some (pre, ds, hx, rest) => some (c :: pre, ds, hx, rest)
      | none => none

/-- `hashRegex.MatchString`. -/
def hashMatchString (s : String) : Bool :=
  (hashScan s.data).isSome

/-- `hashRegex.ReplaceAllString(s, "$1")` (when `firstGroup`) or `"$2"`:
every non-overlapping leftmost match is replaced by the chosen group,
unmatched text is kept.  The fuel is the list length; every match consumes at
least one character, so the fuel never runs out. -/
def hashReplaceFuel (firstGroup : Bool) : Nat → List Char → List Char
  | 0, cs => cs
  | fuel + 1, cs =>
    match hashScan cs with
    | none => cs
    | some (pre, ds, hx, rest) =>
      pre ++ (if firstGroup then ds else hx) ++ hashReplaceFuel firstGroup fuel rest

def hashReplaceAll (firstGroup : Bool) (s : String) : String :=
  String.mk (hashReplaceFuel firstGroup s.data.length s.data)

/-! ## Data model (record.go) -/

/-- `SortMode` is a Go string type. -/
abbrev SortMode := String

def NoSort : SortMode := "nosort"
def Rowsort : SortMode := "rowsort"
def ValueSort : SortMode := "valuesort"

inductive RecordType where
  | statement
  | query
  | halt
deriving DecidableEq

/-- `Condition`: a skipif/onlyif directive attached to a record. -/
structure Condition where
  isOnly : Bool
  isSkip : Bool
  engine : String
deriving DecidableEq

/-- `Record`: one parsed unit of a test script. -/
structure Record where
  recordType : RecordType
  expectError : Bool
  conditions : List Condition
  schema : String
  sortMode : SortMode
  query : String
  lineNum : Nat
  result : List String
  label : String
  hashThreshold : Int
deriving DecidableEq

def defaultHashThreshold : Int := 8
def hashThresholdUnset : Int := -1

/-- `&Record{hashThreshold: hashThresholdUnset}`: all other fields take their
Go zero values. -/
def freshRecord : Record :=
  { recordType := RecordType.statement
    expectError := false
    conditions := []
    schema := ""
    sortMode := ""
    query := ""
    lineNum := 0
    result := []
    label := ""
    hashThreshold := hashThresholdUnset }

/-- `Record.IsHashResult`: exactly one result entry and it contains the hash
pattern. -/
def isHashResult (r : Record) : Bool :=
  r.result.length == 1 && hashMatchString (r.result.headD "")

/-- `Record.HashResult`: `hashRegex.ReplaceAllString(r.result[0], "$2")`.
(Go indexes `result[0]`; all call sites guard with IsHashResult, so the list
is non-empty there.) -/
def hashResult (r : Record) : String :=
  hashReplaceAll false (r.result.headD "")

/-- `Record.NumResults` for query records: the number of result values, or
the numeric prefix of the hash summary in hash mode (`Atoi` error ignored,
yielding 0).  Go's guard panics for non-query records; every call site in the
runner is inside the query branch, and the claims about it carry a
`recordType = query` hypothesis. -/
def numResults (r : Record) : Int :=
  if isHashResult r then atoi (hashReplaceAll true (r.result.headD ""))
  else (r.result.length : Int)

def condDefault : Condition := { isOnly := false, isSkip := false, engine := "" }

/-- The skip-condition loop of `ShouldExecuteForEngine`. -/
def anySkipMatches (cs : List Condition) (engine : String) : Bool :=
  cs.any (fun c => c.isSkip && c.engine == engine)

/-- `Record.ShouldExecuteForEngine`: an `onlyif` is honoured only as the
single condition of a record; otherwise any matching `skipif` vetoes. -/
def shouldExecuteForEngine (r : Record) (engine : String) : Bool :=
  if r.conditions.length == 1 && (r.conditions.getD 0 condDefault).isOnly then
    (r.conditions.getD 0 condDefault).engine == engine
  else if anySkipMatches r.conditions engine then false
  else true

/-! ## Sorting (SortResults, rowSorter) -/

/-- Go string `<`: byte-wise lexicographic comparison, equal to code-point
lexicographic comparison under UTF-8. -/
def strLtB : List Char → List Char → Bool
  | [], [] => false
  | [], _ :: _ => true
  | _ :: _, [] => false
  | a :: as, b :: bs =>
    if a < b then true else if b < a then false else strLtB as bs

def goStrLt (a b : String) : Bool := strLtB a.data b.data

/-- `rowSorter.Less`: column-by-column string comparison of two rows (rows
produced by `toRow` always have equal width, the record's column count). -/
def rowLess : List String → List String → Bool
  | [], _ => false
  | _ :: _, [] => false
  | a :: as, b :: bs =>
    if goStrLt a b then true else if goStrLt b a then false else rowLess as bs

/-- Insertion step for sorting rows ascending by `rowLess`.  `sort.Sort` is
unstable, but rows incomparable under `rowLess` are element-wise equal, so
every correct sort produces the same sequence. -/
def insertRow (x : List String) : List (List String) → List (List String)
  | [] => [x]
  | y :: ys => if rowLess y x then y :: insertRow x ys else x :: y :: ys

def sortRowList : List (List String) → List (List String)
  | [] => []
  | x :: xs => insertRow x (sortRowList xs)

/-- Insertion step for `sort.Strings` (ascending by Go string `<`). -/
def insertStr (x : String) : List String → List String
  | [] => [x]
  | y :: ys => if goStrLt y x then y :: insertStr x ys else x :: y :: ys

def sortStrings : List String → List String
  | [] => []
  | x :: xs => insertStr x (sortStrings xs)

/-- Split into consecutive rows of width `w`; the fuel (the list length, with
`w ≥ 1`) never runs out. -/
def chunkRows (w : Nat) : Nat → List String → List (List String)
  | 0, _ => []
  | _, [] => []
  | fuel + 1, l => l.take w :: chunkRows w fuel (l.drop w)

def flattenRows : List (List String) → List String
  | [] => []
  | r :: rs => r ++ flattenRows rs

/-- The in-place effect of `sort.Sort(rowSorter{...})` on the value slice:
the first `(len/w)*w` entries are reordered as sorted rows of width `w`; a
trailing remainder (when `w` does not divide the length) is out of range of
`toRow` and stays in place. -/
def rowsortList (w : Nat) (values : List String) : List String :=
  let m := (values.length / w) * w
  flattenRows (sortRowList (chunkRows w values.length (values.take m))) ++ values.drop m

/-- `Record.SortResults`: returns the final contents of the (in-place sorted)
results slice, or the panic message.  `rowsort` reaches `NumCols`, which
panics for non-query records, and divides by the column count, which panics
for an empty schema; an unrecognised sort mode (including the zero value "")
hits the `panic(fmt.Sprintf("Uncrecognized sort mode %v", ...))` branch. -/
def sortResults (r : Record) (results : List String) : Except String (List String) :=
  if r.sortMode = NoSort then Except.ok results
  else if r.sortMode = Rowsort then
    if r.recordType ≠ RecordType.query then Except.error "Only query records have results"
    else if r.schema.length = 0 then Except.error "runtime error: integer divide by zero"
    else Except.ok (rowsortList r.schema.length results)
  else if r.sortMode = ValueSort then Except.ok (sortStrings results)
  else Except.error ("Uncrecognized sort mode " ++ r.sortMode)

/-! ## Verifier (runner.go) -/

/-- One logged line per record.  Each constructor corresponds to one
`logFailure` / `logSuccess` / `logSkip` call site of runner.go, carrying the
data interpolated into its message. -/
inductive Outcome where
  | skipped
  | success
  | failUnexpectedError (e : String)
  | failExpectedErrorButOk
  | failWrongNumResults (expected got : Int)
  | failWrongResult (pos : Nat) (expected got : String)
  | failHashMismatch (expected got : String)
  | failSchemasDiffer (expected got : String)
  | caughtPanic (msg : String)
deriving DecidableEq

def allIsMatch (s : String) : Bool :=
  !s.data.isEmpty && s.data.all (fun c => c = 'I')

def isAndRsMatch (s : String) : Bool :=
  !s.data.isEmpty && s.data.all (fun c => c = 'I' || c = 'R')

/-- `verifySchema`: whether the observed schema passes, together with the
failure line logged when it does not.  The edge case (`allIs` = `^I+$`,
`isAndRs` = `^[IR]+$`) skips comparison for empty result sets whose expected
schema is all-integer. -/
def verifySchema (r : Record) (schemaStr : String) : Bool × List Outcome :=
  if schemaStr = r.schema then (true, [])
  else if schemaStr.length == r.schema.length && numResults r == 0 &&
          allIsMatch r.schema && isAndRsMatch schemaStr then
    (true, [])
  else (false, [Outcome.failSchemasDiffer r.schema schemaStr])

/-- The comparison loop of `verifyRows`: Go iterates over the indices of
`record.Result()` and reads `results[i]`; reading past the end of `results`
would be an index-out-of-range panic (unreachable after the count check). -/
def cmpResults : List String → List String → Nat → Except String (List Outcome)
  | [], _, _ => Except.ok [Outcome.success]
  | e :: es, g :: gs, i =>
    if e = g then cmpResults es gs (i + 1)
    else Except.ok [Outcome.failWrongResult i e g]
  | _ :: _, [], _ => Except.error "runtime error: index out of range"

/-- `verifyRows`: sorts the results slice in place, then compares it with the
record's expected list.  Returns the logged outcomes together with the final
contents of the caller's slice. -/
def verifyRows (r : Record) (results : List String) :
    Except String (List Outcome × List String) :=
  match sortResults r results with
  | Except.error e => Except.error e
  | Except.ok sorted =>
    match cmpResults r.result sorted 0 with
    | Except.error e => Except.error e
    | Except.ok lg => Except.ok (lg, sorted)

/-- `verifyHash`: sorts in place, hashes the sorted values and compares with
the record's expected digest. -/
def verifyHash (md5f : List String → String) (r : Record) (results : List String) :
    Except String (List Outcome × List String) :=
  match sortResults r results with
  | Except.error e => Except.error e
  | Except.ok sorted =>
    let computed := md5f sorted
    if hashResult r ≠ computed then
      Except.ok ([Outcome.failHashMismatch (hashResult r) computed], sorted)
    else
      Except.ok ([Outcome.success], sorted)

/-- `verifyResults`: count check first, then hash or literal comparison. -/
def verifyResults (md5f : List String → String) (r : Record) (results : List String) :
    Except String (List Outcome × List String) :=
  if (results.length : Int) ≠ numResults r then
    Except.ok ([Outcome.failWrongNumResults (numResults r) (results.length : Int)], results)
  else if isHashResult r then verifyHash md5f r results
  else verifyRows r results

/-- The verification step of `executeRecord`'s query branch:
`if verifySchema(record, schemaStr) { verifyResults(record, results) }` —
only one error is logged per record, so a schema failure suppresses result
comparison entirely. -/
def queryVerify (md5f : List String → String) (r : Record) (schemaStr : String)
    (results : List String) : Except String (List Outcome × List String) :=
  let vs := verifySchema r schemaStr
  if vs.1 then verifyResults md5f r results
  else Except.ok (vs.2, results)

/-! ## Run loop (runner.go) -/

/-- The abstract backend (`Harness`): engine identifier, statement execution
(`some msg` is an error) and query execution. -/
structure Harness where
  engineStr : String
  executeStatement : String → Option String
  executeQuery : String → Except String (String × List String)

inductive BackendCall where
  | stmt (q : String)
  | query (q : String)
deriving DecidableEq

/-- The observable effect of `executeRecord`: the returned values
(schema, results, cont, err) plus the log lines emitted and the backend
calls made. -/
structure ExecResult where
  schema : String
  results : List String
  cont : Bool
  err : Option String
  log : List Outcome
  calls : List BackendCall
deriving DecidableEq

/-- `executeRecord`.  An ineligible record logs a skip (for queries and
statements only) and returns `cont = false`.  Panics raised during
verification are recovered by the deferred handler, which logs them and
forces `cont = true`; the named return values are still zero at that point
because the query branch shadows them. -/
def executeRecord (md5f : List String → String) (h : Harness) (r : Record) : ExecResult :=
  if shouldExecuteForEngine r h.engineStr = false then
    { schema := "", results := [], cont := false, err := none
      log :=
        if r.recordType = RecordType.query ∨ r.recordType = RecordType.statement then
          [Outcome.skipped]
        else []
      calls := [] }
  else
    match r.recordType with
    | RecordType.statement =>
      let res := h.executeStatement r.query
      if r.expectError then
        match res with
        | none =>
          { schema := "", results := [], cont := true, err := none
            log := [Outcome.failExpectedErrorButOk], calls := [BackendCall.stmt r.query] }
        | some _ =>
          { schema := "", results := [], cont := true, err := none
            log := [Outcome.success], calls := [BackendCall.stmt r.query] }
      else
        match res with
        | some e =>
          { schema := "", results := [], cont := true, err := some e
            log := [Outcome.failUnexpectedError e], calls := [BackendCall.stmt r.query] }
        | none =>
          { schema := "", results := [], cont := true, err := none
            log := [Outcome.success], calls := [BackendCall.stmt r.query] }
    | RecordType.query =>
      match h.executeQuery r.query with
      | Except.error e =>
        { schema := "", results := [], cont := true, err := some e
          log := [Outcome.failUnexpectedError e], calls := [BackendCall.query r.query] }
      | Except.ok (schemaStr, results) =>
        match queryVerify md5f r schemaStr results with
        | Except.error m =>
          { schema := "", results := [], cont := true, err := none
            log := [Outcome.caughtPanic m], calls := [BackendCall.query r.query] }
        | Except.ok (lg, finalResults) =>
          { schema := schemaStr, results := finalResults, cont := true, err := none
            log := lg, calls := [BackendCall.query r.query] }
    | RecordType.halt =>
      { schema := "", results := [], cont := false, err := none, log := [], calls := [] }

/-- The loop of `runTestFile` over the parsed records: execute each record in
order, and break as soon as one returns `cont = false` (that record's log
has already been emitted, so it is included). -/
def runRecords (md5f : List String → String) (h : Harness) : List Record → List ExecResult
  | [] => []
  | r :: rs =>
    let res := executeRecord md5f h r
    if res.cont then res :: runRecords md5f h rs else [res]

/-! ## Parser (record.go: parseRecord / ParseTestFile) -/

def Separator : String := "----"

inductive PState where
  | start
  | inStatement
  | inQuery
  | inResults
deriving DecidableEq

inductive ParseErr where
  /-- An `errors.New` / `fmt.Errorf` return of parseRecord. -/
  | parseError (msg : String)
  /-- An unrecovered runtime panic (index out of range on `fields`). -/
  | panicked
  /-- Modelling artifact: the file loop's fuel ran out.  Unreachable when the
  fuel exceeds the number of lines, since every emitted record consumes at
  least one line. -/
  | outOfFuel
deriving DecidableEq

inductive PResult where
  /-- A record was emitted; `rest` is the unread remainder of the input and
  `ln` the number of lines consumed so far (the scanner's line counter). -/
  | ok (r : Record) (rest : List String) (ln : Nat)
  /-- `io.EOF`: end of input with no record started. -/
  | eof
  | fail (e : ParseErr)
deriving DecidableEq

/-- The scan loop of `parseRecord`.  `lines` is the unread input, `ln` the
number of lines consumed so far (so the current line is `ln + 1`), `st` the
state, `rec` the record under construction, `qb` the query builder. -/
def parseRecordLoop : List String → Nat → PState → Record → String → PResult
  | [], ln, st, rec, qb =>
    if rec.lineNum = 0 then PResult.eof
    else PResult.ok (if st = PState.inStatement then { rec with query := qb } else rec) [] ln
  | line :: rest, ln, st, rec, qb =>
    let cur := ln + 1
    if startsWithHash line then
      parseRecordLoop rest cur st rec qb
    else
      let blank := isBlankLine line
      let cr := stripComment line
      let fields := goFields cr
      match st with
      | PState.start =>
        if blank then parseRecordLoop rest cur st rec qb
        else
          match fields with
          | [] => PResult.fail ParseErr.panicked
          | f0 :: frest =>
            if f0 = "halt" then
              PResult.ok { rec with recordType := RecordType.halt, lineNum := cur } rest cur
            else if f0 = "skipif" ∨ f0 = "onlyif" then
              match frest with
              | [] => PResult.fail ParseErr.panicked
              | f1 :: _ =>
                parseRecordLoop rest cur st
                  { rec with conditions :=
                      rec.conditions ++ [{ isOnly := f0 = "onlyif", isSkip := f0 = "skipif", engine := f1 }] }
                  qb
            else if f0 = "hash-threshold" then
              match frest with
              | [] => PResult.fail ParseErr.panicked
              | f1 :: _ => parseRecordLoop rest cur st { rec with hashThreshold := atoi f1 } qb
            else if f0 = "statement" then
              match frest with
              | [] => PResult.fail ParseErr.panicked
              | f1 :: _ =>
                if f1 = "ok" then
                  parseRecordLoop rest cur PState.inStatement
                    { rec with recordType := RecordType.statement, expectError := false } qb
                else if f1 = "error" then
                  parseRecordLoop rest cur PState.inStatement
                    { rec with recordType := RecordType.statement, expectError := true } qb
                else PResult.fail (ParseErr.parseError ("unexpected token " ++ f1))
            else if f0 = "query" then
              match frest with
              | [] => PResult.fail ParseErr.panicked
              | f1 :: frest2 =>
                let rec2 := { rec with recordType := RecordType.query, schema := f1 }
                let rec3 :=
                  match frest2 with
                  | [] => rec2
                  | f2 :: frest3 =>
                    let recA := { rec2 with sortMode := f2 }
                    match frest3 with
                    | [] => recA
                    | f3 :: _ => { recA with label := f3 }
                parseRecordLoop rest cur PState.inQuery rec3 qb
            else
              PResult.fail (ParseErr.parseError
                ("Unhandled statement " ++ f0 ++ " on line " ++ toString cur))
      | PState.inStatement =>
        if blank then PResult.ok { rec with query := qb } rest cur
        else
          let rec2 := if rec.lineNum = 0 then { rec with lineNum := cur } else rec
          parseRecordLoop rest cur st rec2 (qb ++ cr)
      | PState.inQuery =>
        let rec2 := if rec.lineNum = 0 then { rec with lineNum := cur } else rec
        if fields = [Separator] then
          parseRecordLoop rest cur PState.inResults { rec2 with query := qb } (qb ++ cr)
        else if blank then PResult.ok { rec2 with query := qb } rest cur
        else parseRecordLoop rest cur st rec2 (qb ++ cr)
      | PState.inResults =>
        if blank then PResult.ok rec rest cur
        else parseRecordLoop rest cur st { rec with result := rec.result ++ [cr] } qb

/-- `parseRecord`: run the scan loop from the start state on a fresh record. -/
def parseRecord (lines : List String) (ln : Nat) : PResult :=
  parseRecordLoop lines ln PState.start freshRecord ""

/-- The hash-threshold inheritance step of `ParseTestFile`: an unset
threshold is taken from the previous record, or defaulted to 8. -/
def resolveThreshold (prev : Option Record) (r : Record) : Record :=
  if r.hashThreshold = hashThresholdUnset then
    match prev with
    | some p => { r with hashThreshold := p.hashThreshold }
    | none => { r with hashThreshold := defaultHashThreshold }
  else r

/-- The record loop of `ParseTestFile`, with fuel (see `ParseErr.outOfFuel`). -/
def parseFileLoopF : Nat → List String → Nat → Option Record → Except ParseErr (List Record)
  | 0, _, _, _ => Except.error ParseErr.outOfFuel
  | fuel + 1, lines, ln, prev =>
    match parseRecord lines ln with
    | PResult.eof => Except.ok []
    | PResult.fail e => Except.error e
    | PResult.ok r rest ln2 =>
      let r2 := resolveThreshold prev r
      match parseFileLoopF fuel rest ln2 (some r2) with
      | Except.error e => Except.error e
      | Except.ok rs => Except.ok (r2 :: rs)

/-- `ParseTestFile` on the file's lines. -/
def parseTestFile (lines : List String) : Except ParseErr (List Record) :=
  parseFileLoopF (lines.length + 1) lines 0 none

/-- The same record loop without the hash-threshold inheritance: the raw
records as `parseRecord` produces them. -/
def parseFileRawF : Nat → List String → Nat → Except ParseErr (List Record)
  | 0, _, _ => Except.error ParseErr.outOfFuel
  | fuel + 1, lines, ln =>
    match parseRecord lines ln with
    | PResult.eof => Except.ok []
    | PResult.fail e => Except.error e
    | PResult.ok r rest ln2 =>
      match parseFileRawF fuel rest ln2 with
      | Except.error e => Except.error e
      | Except.ok rs => Except.ok (r :: rs)

def parseFileRaw (lines : List String) : Except ParseErr (List Record) :=
  parseFileRawF (lines.length + 1) lines 0

/-- Specification-side hash-threshold resolution: carry forward the running
threshold, substituting it for the unset sentinel. -/
def resolveList (cur : Int) : List Record → List Record
  | [] => []
  | r :: rs =>
    let t := if r.hashThreshold = hashThresholdUnset then cur else r.hashThreshold
    { r with hashThreshold := t } :: resolveList t rs

/-- The running threshold contributed by the previous record (`prevRecord` in
`ParseTestFile`): its threshold, or the default when there is none. -/
def prevCur : Option Record → Int
  | some p => p.hashThreshold
  | none => defaultHashThreshold

/-- Shift a record's canonical line number by `k` (the unset sentinel 0 is
preserved). -/
def bumpRecord (k : Nat) (r : Record) : Record :=
  if r.lineNum = 0 then r else { r with lineNum := r.lineNum + k }

def nonHaltCount (rs : List Record) : Nat :=
  (rs.filter (fun r => r.recordType != RecordType.halt)).length

/-- Comment-stripped concatenation of body lines (the query builder's
contents after appending each of them). -/
def concatStrip : List String → String
  | [] => ""
  | l :: ls => stripComment l ++ concatStrip ls

/-! ## Concrete fixtures used by the claim theorems -/

/-- A stand-in digest function; none of the fixtures compare hashes. -/
def md5c : List String → String := fun _ => ""

/-- A statement record guarded by `skipif mysql`. -/
def c1skipRec : Record :=
  { freshRecord with
      recordType := RecordType.statement
      conditions := [{ isOnly := false, isSkip := true, engine := "mysql" }]
      query := "CREATE TABLE a (x INTEGER)"
      lineNum := 2
      hashThreshold := 8 }

/-- An unconditional statement record following `c1skipRec` in the same file. -/
def c1nextRec : Record :=
  { freshRecord with
      recordType := RecordType.statement
      query := "CREATE TABLE b (y INTEGER)"
      lineNum := 5
      hashThreshold := 8 }

def c1harness : Harness :=
  { engineStr := "mysql"
    executeStatement := fun _ => none
    executeQuery := fun _ => Except.ok ("", []) }

def c3lines : List String := ["hash-threshold -1", "statement ok", "SELECT 1", ""]

def c3rec : Record :=
  { freshRecord with
      recordType := RecordType.statement
      query := "SELECT 1"
      lineNum := 3
      hashThreshold := 8 }

/-- A query record expecting one literal value with schema "I". -/
def c4rec : Record :=
  { freshRecord with
      recordType := RecordType.query
      schema := "I"
      sortMode := "nosort"
      query := "SELECT a FROM t"
      lineNum := 2
      result := ["1"]
      hashThreshold := 8 }

/-- A backend observing schema "T" and two values for any query. -/
def c4harness : Harness :=
  { engineStr := "e"
    executeStatement := fun _ => none
    executeQuery := fun _ => Except.ok ("T", ["x", "y"]) }

/-- A query record with an empty expected-result list and all-integer schema. -/
def c5rec : Record :=
  { freshRecord with
      recordType := RecordType.query
      schema := "II"
      sortMode := "nosort"
      result := []
      hashThreshold := 8 }

def c6lines : List String := ["  # only a comment"]

def c7lines : List String := ["query I nosort", "SELECT 1"]

def c7rec : Record :=
  { freshRecord with
      recordType := RecordType.query
      schema := "I"
      sortMode := "nosort"
      lineNum := 2 }

def c8lines : List String := ["halt", "statement ok", "SELECT 1", ""]

def c8haltRec : Record :=
  { freshRecord with recordType := RecordType.halt, lineNum := 1, hashThreshold := 8 }

def c8stmtRec : Record := c3rec

/-- Witness file for the halt-prepend law: a single plain statement. -/
def c8wLines : List String := ["statement ok", "SELECT 1", ""]

def c8wRec : Record :=
  { freshRecord with
      recordType := RecordType.statement
      query := "SELECT 1"
      lineNum := 2
      hashThreshold := 8 }

def c9lines : List String := ["query I", "SELECT 1", "----", "1", ""]

def c9rec : Record :=
  { freshRecord with
      recordType := RecordType.query
      schema := "I"
      sortMode := ""
      query := "SELECT 1"
      lineNum := 2
      result := ["1"]
      hashThreshold := 8 }

/-- A valuesort query record whose expected list is already sorted. -/
def c10rec : Record :=
  { freshRecord with
      recordType := RecordType.query
      schema := "I"
      sortMode := "valuesort"
      result := ["1", "2"]
      hashThreshold := 8 }

/-! ## Helper lemmas -/

theorem str_append_empty (s : String) : s ++ "" = s := by
  cases s with
  | mk d => show String.mk (d ++ []) = String.mk d
            rw [List.append_nil]

theorem str_append_assoc (a b c : String) : a ++ b ++ c = a ++ (b ++ c) := by
  cases a with
  | mk x =>
    cases b with
    | mk y =>
      cases c with
      | mk z => show String.mk (x ++ y ++ z) = String.mk (x ++ (y ++ z))
                rw [List.append_assoc]

theorem all_takeWhile (p q : Char → Bool) :
    ∀ cs : List Char, cs.all p = true → (cs.takeWhile q).all p = true := by
  intro cs
  induction cs with
  | nil => intro _; rfl
  | cons c cs ih =>
    intro h
    rw [List.all_cons, Bool.and_eq_true] at h
    rw [List.takeWhile_cons]
    by_cases hq : q c = true
    · rw [if_pos hq, List.all_cons, Bool.and_eq_true]
      exact ⟨h.1, ih h.2⟩
    · rw [if_neg hq]; rfl

theorem splitFields_all_space :
    ∀ cs : List Char, cs.all goIsSpace = true → splitFields cs [] = [] := by
  intro cs
  induction cs with
  | nil => intro _; rfl
  | cons c cs ih =>
    intro h
    rw [List.all_cons, Bool.and_eq_true] at h
    show splitFields (c :: cs) [] = []
    rw [splitFields, if_pos h.1]
    exact (if_pos rfl).trans (ih h.2)

theorem goFields_of_blank (line : String) (h : isBlankLine line = true) :
    goFields (stripComment line) = [] := by
  apply splitFields_all_space
  exact all_takeWhile goIsSpace (fun c => c ≠ '#') line.data h

/-! ## C1 -/

/-- C1: the claim says an ineligible record is skipped and the run loop
continues with the subsequent records.  In the code, `executeRecord` returns
`cont = false` for an ineligible record, so `runTestFile` breaks out of its
loop: here the eligible `c1nextRec` is never executed (the run trace has a
single entry, with a skip logged, no backend call, and `cont = false`).  The
skip *is* logged and the record never reaches the backend, but processing
stops instead of continuing. -/
theorem c1_ineligible_record_stops_run :
    runRecords md5c c1harness [c1skipRec, c1nextRec] =
      [{ schema := "", results := [], cont := false, err := none,
         log := [Outcome.skipped], calls := [] }]
    ∧ shouldExecuteForEngine c1skipRec "mysql" = false
    ∧ shouldExecuteForEngine c1nextRec "mysql" = true :=
  ⟨rfl, rfl, rfl⟩

/-! ## C6 -/

/-- C6 counterexample: a pure-comment line with leading white space before
the '#' is *not* skipped; in the start state its comment-stripped text has no
fields and `fields[0]` panics, so parsing the file fails — contradicting
"never causes a parse failure". -/
theorem c6_cex_leading_ws_comment_fails :
    parseTestFile c6lines = Except.error ParseErr.panicked
    ∧ (("  # only a comment".data.dropWhile goIsSpace).headD ' ') = '#'
    ∧ isBlankLine "  # only a comment" = false :=
  ⟨rfl, rfl, rfl⟩

/-- C6 amended: only a line whose *first character* is '#' (no leading white
space) is skipped entirely, in every parser state: it contributes nothing,
causes no state transition and no failure. -/
theorem c6_hash_comment_lines_skipped (line : String) (lines : List String) (ln : Nat)
    (st : PState) (rec : Record) (qb : String) (h : startsWithHash line = true) :
    parseRecordLoop (line :: lines) ln st rec qb = parseRecordLoop lines (ln + 1) st rec qb := by
  rw [parseRecordLoop]
  simp [h]

theorem c6_hash_comment_lines_skipped_wit :
    parseRecordLoop ["# note"] 0 PState.inResults freshRecord "" =
      parseRecordLoop [] 1 PState.inResults freshRecord "" :=
  c6_hash_comment_lines_skipped "# note" [] 0 PState.inResults freshRecord "" rfl

/-! ## C2 -/

theorem anySkip_false_iff (l : List Condition) (e : String) :
    anySkipMatches l e = false ↔ ∀ c ∈ l, ¬(c.isSkip = true ∧ c.engine = e) := by
  rw [← Bool.not_eq_true, anySkipMatches, List.any_eq_true]
  simp [Bool.and_eq_true]

/-- C2: eligibility per `ShouldExecuteForEngine`.  If the condition list is a
singleton "only" condition, eligibility is exactly `condition.engine =
engine`; in every other case (empty list, multiple conditions, or a singleton
skip condition) eligibility holds exactly when no condition is a skip
condition matching the engine — only-conditions in multi-condition lists have
no effect. -/
theorem c2_should_execute_for_engine (r : Record) (e : String) :
    (∀ c : Condition, r.conditions = [c] → c.isOnly = true →
      (shouldExecuteForEngine r e = true ↔ c.engine = e))
    ∧ ((∀ c : Condition, r.conditions = [c] → c.isOnly = false) →
      (shouldExecuteForEngine r e = true ↔
        ∀ c ∈ r.conditions, ¬(c.isSkip = true ∧ c.engine = e))) := by
  constructor
  · intro c hc honly
    rw [shouldExecuteForEngine, hc]
    simp [honly]
  · intro hno
    have hcond : (r.conditions.length == 1 && (r.conditions.getD 0 condDefault).isOnly) = false := by
      rcases h : r.conditions with _ | ⟨c0, _ | ⟨c1, cs'⟩⟩
      · rfl
      · simp [hno c0 h]
      · simp
    rw [shouldExecuteForEngine, if_neg (by rw [hcond]; exact Bool.false_ne_true)]
    constructor
    · intro htrue
      by_cases hsk : anySkipMatches r.conditions e = true
      · rw [if_pos hsk] at htrue; cases htrue
      · exact (anySkip_false_iff r.conditions e).mp (by rwa [Bool.not_eq_true] at hsk)
    · intro hall
      have hsk := (anySkip_false_iff r.conditions e).mpr hall
      rw [if_neg (by rw [hsk]; exact Bool.false_ne_true)]

theorem c2_should_execute_for_engine_wit :
    shouldExecuteForEngine
      { freshRecord with conditions := [{ isOnly := true, isSkip := false, engine := "mysql" }] }
      "mysql" = true :=
  ((c2_should_execute_for_engine
      { freshRecord with conditions := [{ isOnly := true, isSkip := false, engine := "mysql" }] }
      "mysql").1 { isOnly := true, isSkip := false, engine := "mysql" } rfl rfl).mpr rfl

/-! ## C5 -/

/-- C5: the observed schema passes `verifySchema` exactly when it equals the
record's schema, or — the single special case — the expected value count is
0, the record's schema is all integer tags 'I', the observed schema is all
tags in {'I','R'}, and the two have the same length. -/
theorem c5_schema_check_iff (r : Record) (s : String)
    (_hq : r.recordType = RecordType.query) :
    (verifySchema r s).1 = true ↔
      (s = r.schema ∨
        (numResults r = 0 ∧
         r.schema.data.all (fun c => c == 'I') = true ∧
         s.data.all (fun c => c == 'I' || c == 'R') = true ∧
         s.length = r.schema.length)) := by
  by_cases hs : s = r.schema
  · simp [verifySchema, hs]
  · rw [verifySchema, if_neg hs]
    by_cases hc : (s.length == r.schema.length && numResults r == 0 &&
        allIsMatch r.schema && isAndRsMatch s) = true
    · rw [if_pos hc]
      simp only [Bool.and_eq_true, beq_iff_eq] at hc
      simp only [allIsMatch, isAndRsMatch, Bool.and_eq_true] at hc
      constructor
      · intro _
        exact Or.inr ⟨hc.1.1.2, hc.1.2.2, hc.2.2, hc.1.1.1⟩
      · intro _; rfl
    · rw [if_neg hc]
      constructor
      · intro hfalse; cases hfalse
      · intro hdis
        rcases hdis with hdis | ⟨hn, hI, hIR, hlen⟩
        · exact absurd hdis hs
        · exfalso
          apply hc
          have hlen2 : s.data.length = r.schema.data.length := hlen
          have hne : r.schema.data ≠ [] := by
            intro hnil
            apply hs
            have hsd : s.data = [] := by
              rw [hnil] at hlen2
              exact List.length_eq_zero.mp (by simpa using hlen2)
            exact String.ext (hsd.trans hnil.symm)
          have hne2 : s.data ≠ [] := by
            intro hnil2
            apply hne
            rw [hnil2] at hlen2
            exact List.length_eq_zero.mp (by simpa using hlen2.symm)
          rw [Bool.and_eq_true, Bool.and_eq_true, Bool.and_eq_true]
          refine ⟨⟨⟨?_, ?_⟩, ?_⟩, ?_⟩
          · rw [beq_iff_eq]; exact hlen
          · rw [beq_iff_eq]; exact hn
          · rw [allIsMatch, Bool.and_eq_true]
            exact ⟨by simpa [List.isEmpty_iff] using hne, hI⟩
          · rw [isAndRsMatch, Bool.and_eq_true]
            exact ⟨by simpa [List.isEmpty_iff] using hne2, hIR⟩

theorem c5_schema_check_iff_wit :
    (verifySchema c5rec "IR").1 = true :=
  (c5_schema_check_iff c5rec "IR" rfl).mpr (Or.inr (by decide))

/-! ## C3 -/

/-- C3 counterexample: the directive `hash-threshold -1` parses (via `Atoi`)
to the unset sentinel -1, so `ParseTestFile` replaces it with the previous
threshold or the default 8 — the record's effective threshold is 8, not the
value -1 of the most recent preceding hash-threshold directive. -/
theorem c3_cex_sentinel_directive :
    parseTestFile c3lines = Except.ok [c3rec]
    ∧ atoi "-1" = -1
    ∧ c3rec.hashThreshold ≠ atoi "-1" :=
  ⟨rfl, rfl, by decide⟩

theorem resolveThreshold_eq (prev : Option Record) (r : Record) :
    resolveThreshold prev r =
      { r with hashThreshold :=
          if r.hashThreshold = hashThresholdUnset then prevCur prev else r.hashThreshold } := by
  by_cases h : r.hashThreshold = hashThresholdUnset
  · cases prev <;> simp [resolveThreshold, prevCur, h]
  · simp [resolveThreshold, prevCur, h]

theorem parseFileLoopF_eq_raw (fuel : Nat) :
    ∀ (lines : List String) (ln : Nat) (prev : Option Record),
      parseFileLoopF fuel lines ln prev =
        (parseFileRawF fuel lines ln).map (resolveList (prevCur prev)) := by
  induction fuel with
  | zero => intro lines ln prev; rfl
  | succ fuel ih =>
    intro lines ln prev
    rw [parseFileLoopF, parseFileRawF]
    cases hpr : parseRecord lines ln with
    | eof => rfl
    | fail e => rfl
    | ok r rest ln2 =>
      dsimp only
      rw [ih rest ln2 (some (resolveThreshold prev r))]
      cases hraw : parseFileRawF fuel rest ln2 with
      | error e => rfl
      | ok rs =>
        show Except.ok (resolveThreshold prev r ::
            resolveList (prevCur (some (resolveThreshold prev r))) rs) =
          Except.map (resolveList (prevCur prev)) (Except.ok (r :: rs))
        rw [resolveThreshold_eq]
        rfl

/-- C3 amended: a record's effective threshold follows the running-resolution
law `resolveList`: the raw value parsed from the last hash-threshold
directive of its own directive lines, unless that value is -1 (the unset
sentinel, which a directive argument parsing to -1 also produces), in which
case the previous record's effective threshold, or the default 8 for the
first record; consequently no emitted record ever carries the sentinel. -/
theorem c3_threshold_resolution :
    (∀ lines : List String,
        parseTestFile lines = (parseFileRaw lines).map (resolveList defaultHashThreshold))
    ∧ (∀ (lines : List String) (rs : List Record),
        parseTestFile lines = Except.ok rs →
        ∀ r ∈ rs, r.hashThreshold ≠ hashThresholdUnset) := by
  have hinv : ∀ (rs0 : List Record) (cur : Int), cur ≠ hashThresholdUnset →
      ∀ r ∈ resolveList cur rs0, r.hashThreshold ≠ hashThresholdUnset := by
    intro rs0
    induction rs0 with
    | nil => intro cur _ r hr; cases hr
    | cons x xs ih =>
      intro cur hcur r hr
      rw [resolveList] at hr
      rcases List.mem_cons.mp hr with hr | hr
      · subst hr
        show (if x.hashThreshold = hashThresholdUnset then cur else x.hashThreshold) ≠
          hashThresholdUnset
        by_cases hx : x.hashThreshold = hashThresholdUnset
        · rw [if_pos hx]; exact hcur
        · rw [if_neg hx]; exact hx
      · exact ih _ (by
          by_cases hx : x.hashThreshold = hashThresholdUnset
          · rw [if_pos hx]; exact hcur
          · rw [if_neg hx]; exact hx) r hr
  constructor
  · intro lines
    exact parseFileLoopF_eq_raw (lines.length + 1) lines 0 none
  · intro lines rs h r hr
    have h1 : parseTestFile lines =
        (parseFileRawF (lines.length + 1) lines 0).map (resolveList (prevCur none)) :=
      parseFileLoopF_eq_raw (lines.length + 1) lines 0 none
    rw [h] at h1
    cases hraw : parseFileRawF (lines.length + 1) lines 0 with
    | error e => rw [hraw] at h1; cases h1
    | ok raws =>
      rw [hraw] at h1
      have h2 : rs = resolveList defaultHashThreshold raws := by
        injection h1 with h1'
      exact hinv raws defaultHashThreshold (by decide) r (h2 ▸ hr)

theorem c3_threshold_resolution_wit :
    c3rec.hashThreshold ≠ hashThresholdUnset :=
  c3_threshold_resolution.2 c3lines [c3rec] rfl c3rec (List.mem_singleton.mpr rfl)

/-! ## C4 -/

/-- C4 counterexample: a record whose expected count (1) differs from the
observed count (2) while the observed schema ("T") also differs from the
record's ("I"): the logged outcome is the schema mismatch, not the count
mismatch the claim requires. -/
theorem c4_cex_schema_reported_not_count :
    (executeRecord md5c c4harness c4rec).log = [Outcome.failSchemasDiffer "I" "T"]
    ∧ ((["x", "y"] : List String).length : Int) ≠ numResults c4rec
    ∧ (executeRecord md5c c4harness c4rec).log ≠
        [Outcome.failWrongNumResults (numResults c4rec) 2] :=
  ⟨rfl, by decide, by decide⟩

theorem verifySchema_false_eq (r : Record) (s : String)
    (h : (verifySchema r s).1 = false) :
    verifySchema r s = (false, [Outcome.failSchemasDiffer r.schema s]) := by
  rw [verifySchema] at h ⊢
  by_cases h1 : s = r.schema
  · rw [if_pos h1] at h; cases h
  · rw [if_neg h1] at h ⊢
    by_cases h2 : (s.length == r.schema.length && numResults r == 0 &&
        allIsMatch r.schema && isAndRsMatch s) = true
    · rw [if_pos h2] at h; cases h
    · rw [if_neg h2]

theorem cmpResults_no_count :
    ∀ (es gs : List String) (i : Nat) (lg : List Outcome) (n m : Int),
      cmpResults es gs i = Except.ok lg → Outcome.failWrongNumResults n m ∉ lg := by
  intro es
  induction es with
  | nil =>
    intro gs i lg n m h
    injection h with h'
    rw [← h']
    simp
  | cons e es ih =>
    intro gs i lg n m h
    cases gs with
    | nil => cases h
    | cons g gs =>
      rw [cmpResults] at h
      by_cases he : e = g
      · rw [if_pos he] at h
        exact ih gs (i + 1) lg n m h
      · rw [if_neg he] at h
        injection h with h'
        rw [← h']
        simp

/-- C4 amended: verification performs the *schema* check before the count
check.  When the schema check fails, the only logged outcome is the schema
mismatch and the caller's slice is untouched — the count is never examined;
conversely a count-mismatch outcome can only be logged when the schema check
passed. -/
theorem c4_schema_check_precedes_count :
    (∀ (md5f : List String → String) (r : Record) (s : String) (vs : List String),
        (verifySchema r s).1 = false →
        queryVerify md5f r s vs = Except.ok ([Outcome.failSchemasDiffer r.schema s], vs))
    ∧ (∀ (md5f : List String → String) (r : Record) (s : String) (vs : List String)
        (lg : List Outcome) (vs2 : List String) (n m : Int),
        queryVerify md5f r s vs = Except.ok (lg, vs2) →
        Outcome.failWrongNumResults n m ∈ lg →
        (verifySchema r s).1 = true) := by
  constructor
  · intro md5f r s vs h
    unfold queryVerify
    rw [verifySchema_false_eq r s h]
    rfl
  · intro md5f r s vs lg vs2 n m h hmem
    by_cases hvs : (verifySchema r s).1 = true
    · exact hvs
    · exfalso
      have hfalse : (verifySchema r s).1 = false := by
        cases hb : (verifySchema r s).1
        · rfl
        · exact absurd hb hvs
      unfold queryVerify at h
      rw [verifySchema_false_eq r s hfalse] at h
      rw [if_neg Bool.false_ne_true] at h
      simp only [Except.ok.injEq, Prod.mk.injEq] at h
      rw [← h.1] at hmem
      exact absurd (List.mem_singleton.mp hmem) (by simp)

theorem c4_schema_check_precedes_count_wit :
    queryVerify md5c c4rec "T" ["x", "y"] =
      Except.ok ([Outcome.failSchemasDiffer "I" "T"], ["x", "y"]) :=
  c4_schema_check_precedes_count.1 md5c c4rec "T" ["x", "y"] (by decide)

/-! ## C7 -/

/-- C7 counterexample: a query body that ends at end of input without a
separator is emitted, but with an *empty* query string — the accumulated SQL
text ("SELECT 1") is discarded, because the end-of-input finalization only
copies the builder for statement bodies. -/
theorem c7_cex_query_body_eof :
    parseRecord c7lines 0 = PResult.ok c7rec [] 2
    ∧ c7rec.query = ""
    ∧ stripComment "SELECT 1" = "SELECT 1"
    ∧ c7rec.query ≠ "SELECT 1" :=
  ⟨rfl, rfl, rfl, by decide⟩

theorem stmt_body_eof :
    ∀ (body : List String) (ln : Nat) (rec : Record) (qb : String),
      rec.lineNum ≠ 0 →
      (∀ l ∈ body, startsWithHash l = false ∧ isBlankLine l = false) →
      parseRecordLoop body ln PState.inStatement rec qb =
        PResult.ok { rec with query := qb ++ concatStrip body } [] (ln + body.length) := by
  intro body
  induction body with
  | nil =>
    intro ln rec qb hln _
    rw [parseRecordLoop, if_neg hln, if_pos rfl, concatStrip, str_append_empty]
    rfl
  | cons l body ih =>
    intro ln rec qb hln hall
    have hl := hall l (List.mem_cons_self l body)
    rw [parseRecordLoop]
    rw [if_neg (by rw [hl.1]; exact Bool.false_ne_true)]
    dsimp only
    rw [if_neg (by rw [hl.2]; exact Bool.false_ne_true), if_neg hln]
    rw [ih (ln + 1) rec (qb ++ stripComment l) hln
        (fun x hx => hall x (List.mem_cons_of_mem l hx))]
    rw [concatStrip, ← str_append_assoc]
    have harith : ln + 1 + body.length = ln + (l :: body).length := by
      rw [List.length_cons]; omega
    rw [harith]

theorem query_body_eof :
    ∀ (body : List String) (ln : Nat) (rec : Record) (qb : String),
      rec.lineNum ≠ 0 →
      (∀ l ∈ body, startsWithHash l = false ∧ isBlankLine l = false ∧
          goFields (stripComment l) ≠ [Separator]) →
      parseRecordLoop body ln PState.inQuery rec qb =
        PResult.ok rec [] (ln + body.length) := by
  intro body
  induction body with
  | nil =>
    intro ln rec qb hln _
    rw [parseRecordLoop, if_neg hln, if_neg (by decide)]
    rfl
  | cons l body ih =>
    intro ln rec qb hln hall
    have hl := hall l (List.mem_cons_self l body)
    rw [parseRecordLoop]
    rw [if_neg (by rw [hl.1]; exact Bool.false_ne_true)]
    dsimp only
    rw [if_neg hln, if_neg hl.2.2, if_neg (by rw [hl.2.1]; exact Bool.false_ne_true)]
    rw [ih (ln + 1) rec (qb ++ stripComment l) hln
        (fun x hx => hall x (List.mem_cons_of_mem l hx))]
    have harith : ln + 1 + body.length = ln + (l :: body).length := by
      rw [List.length_cons]; omega
    rw [harith]

theorem results_body_eof :
    ∀ (body : List String) (ln : Nat) (rec : Record) (qb : String),
      rec.lineNum ≠ 0 →
      (∀ l ∈ body, startsWithHash l = false ∧ isBlankLine l = false) →
      parseRecordLoop body ln PState.inResults rec qb =
        PResult.ok { rec with result := rec.result ++ body.map stripComment } []
          (ln + body.length) := by
  intro body
  induction body with
  | nil =>
    intro ln rec qb hln _
    rw [parseRecordLoop, if_neg hln, if_neg (by decide)]
    rw [List.map_nil, List.append_nil]
    rfl
  | cons l body ih =>
    intro ln rec qb hln hall
    have hl := hall l (List.mem_cons_self l body)
    rw [parseRecordLoop]
    rw [if_neg (by rw [hl.1]; exact Bool.false_ne_true)]
    dsimp only
    rw [if_neg (by rw [hl.2]; exact Bool.false_ne_true)]
    rw [ih (ln + 1) { rec with result := rec.result ++ [stripComment l] } qb hln
        (fun x hx => hall x (List.mem_cons_of_mem l hx))]
    rw [List.map_cons, List.append_assoc]
    have harith : ln + 1 + body.length = ln + (l :: body).length := by
      rw [List.length_cons]; omega
    rw [harith]
    rfl

/-- C7 amended: when input ends mid-body, a statement body is finalized with
all accumulated comment-stripped text, and a results body is emitted with all
accumulated result lines; but a query body ending at end of input (no
separator, no blank line) is emitted with its `query` field untouched — the
accumulated SQL text in the builder is discarded. -/
theorem c7_eof_finalization :
    (∀ (body : List String) (ln : Nat) (rec : Record) (qb : String),
        rec.lineNum ≠ 0 →
        (∀ l ∈ body, startsWithHash l = false ∧ isBlankLine l = false) →
        parseRecordLoop body ln PState.inStatement rec qb =
          PResult.ok { rec with query := qb ++ concatStrip body } [] (ln + body.length))
    ∧ (∀ (body : List String) (ln : Nat) (rec : Record) (qb : String),
        rec.lineNum ≠ 0 →
        (∀ l ∈ body, startsWithHash l = false ∧ isBlankLine l = false ∧
            goFields (stripComment l) ≠ [Separator]) →
        parseRecordLoop body ln PState.inQuery rec qb =
          PResult.ok rec [] (ln + body.length))
    ∧ (∀ (body : List String) (ln : Nat) (rec : Record) (qb : String),
        rec.lineNum ≠ 0 →
        (∀ l ∈ body, startsWithHash l = false ∧ isBlankLine l = false) →
        parseRecordLoop body ln PState.inResults rec qb =
          PResult.ok { rec with result := rec.result ++ body.map stripComment } []
            (ln + body.length)) :=
  ⟨stmt_body_eof, query_body_eof, results_body_eof⟩

theorem c7_eof_finalization_wit :
    parseRecordLoop ["SELECT 1"] 1 PState.inStatement { freshRecord with lineNum := 2 } "" =
      PResult.ok { freshRecord with lineNum := 2, query := "" ++ concatStrip ["SELECT 1"] } [] 2
    ∧ parseRecordLoop ["SELECT 1"] 1 PState.inQuery { freshRecord with lineNum := 2 } "SELECT" =
      PResult.ok { freshRecord with lineNum := 2 } [] 2 :=
  ⟨c7_eof_finalization.1 ["SELECT 1"] 1 { freshRecord with lineNum := 2 } "" (by decide)
      (by decide),
   c7_eof_finalization.2.1 ["SELECT 1"] 1 { freshRecord with lineNum := 2 } "SELECT" (by decide)
      (by decide)⟩

/-! ## C9 -/

/-- C9 counterexample: a query directive with no sort-mode token yields a
record whose `sortMode` is the zero value "" — none of the three recognised
modes — and `SortResults` on that record hits the unrecognised-sort-mode
panic branch instead of returning the values unreordered. -/
theorem c9_cex_omitted_sortmode :
    parseTestFile c9lines = Except.ok [c9rec]
    ∧ c9rec.sortMode = ""
    ∧ c9rec.sortMode ≠ NoSort
    ∧ c9rec.sortMode ≠ Rowsort
    ∧ c9rec.sortMode ≠ ValueSort
    ∧ sortResults c9rec ["1"] = Except.error "Uncrecognized sort mode " :=
  ⟨rfl, rfl, by decide, by decide, by decide, rfl⟩

/-- C9 amended: a `query <schema>` directive line with exactly two fields
transfers control to the query-body state leaving `sortMode` untouched, i.e.
at the parser's initial record value "" (the Go zero value); and
`SortResults` on any record with sortMode "" takes the
unrecognised-sort-mode panic branch (recovered by the run loop's panic
handler and logged as a failure), never returning the values. -/
theorem c9_omitted_sortmode_panics :
    freshRecord.sortMode = ""
    ∧ (∀ (line sch : String) (lines : List String) (ln : Nat) (rec : Record) (qb : String),
        startsWithHash line = false →
        goFields (stripComment line) = ["query", sch] →
        parseRecordLoop (line :: lines) ln PState.start rec qb =
          parseRecordLoop lines (ln + 1) PState.inQuery
            { rec with recordType := RecordType.query, schema := sch } qb)
    ∧ (∀ (r : Record) (vs : List String), r.sortMode = "" →
        sortResults r vs = Except.error "Uncrecognized sort mode ") := by
  refine ⟨rfl, ?_, ?_⟩
  · intro line sch lines ln rec qb hhash hfields
    have hblank : isBlankLine line = false := by
      cases hb : isBlankLine line
      · rfl
      · exfalso
        have hgf := goFields_of_blank line hb
        rw [hfields] at hgf
        cases hgf
    rw [parseRecordLoop]
    rw [if_neg (by rw [hhash]; exact Bool.false_ne_true)]
    dsimp only
    rw [if_neg (by rw [hblank]; exact Bool.false_ne_true), hfields]
    dsimp only
    rw [if_neg (by decide), if_neg (by decide), if_neg (by decide), if_neg (by decide),
        if_pos rfl]
  · intro r vs h
    unfold sortResults
    rw [h]
    rw [if_neg (by decide), if_neg (by decide), if_neg (by decide), str_append_empty]

theorem c9_omitted_sortmode_panics_wit :
    parseRecordLoop ["query I"] 0 PState.start freshRecord "" =
      parseRecordLoop [] 1 PState.inQuery
        { freshRecord with recordType := RecordType.query, schema := "I" } ""
    ∧ sortResults c9rec ["1"] = Except.error "Uncrecognized sort mode " :=
  ⟨c9_omitted_sortmode_panics.2.1 "query I" "I" [] 0 freshRecord "" rfl rfl,
   c9_omitted_sortmode_panics.2.2 c9rec ["1"] rfl⟩

/-! ## C10 -/

/-- C10 counterexample: `verifyRows` on a valuesort record sorts the caller's
observed-values slice in place: afterwards the slice holds ["1", "2"], not
its original contents ["2", "1"] — no copy is made, contradicting "leaving
the caller's observed-values slice unchanged". -/
theorem c10_cex_caller_slice_mutated :
    verifyRows c10rec ["2", "1"] = Except.ok ([Outcome.success], ["1", "2"])
    ∧ (["1", "2"] : List String) ≠ ["2", "1"] :=
  ⟨rfl, by decide⟩

theorem cmpResults_ok_of_le :
    ∀ (es gs : List String) (i : Nat), es.length ≤ gs.length →
      ∃ lg, cmpResults es gs i = Except.ok lg := by
  intro es
  induction es with
  | nil => intro gs i _; exact ⟨[Outcome.success], rfl⟩
  | cons e es ih =>
    intro gs i hle
    cases gs with
    | nil => simp at hle
    | cons g gs =>
      rw [cmpResults]
      by_cases he : e = g
      · rw [if_pos he]
        exact ih gs (i + 1) (by simpa using hle)
      · rw [if_neg he]
        exact ⟨_, rfl⟩

/-- C10 amended: verification sorts the observed slice *in place* (no copy):
after `verifyRows`/`verifyHash` the caller's slice holds exactly
`SortResults` of its previous contents.  The Record itself is never written —
the embedding is a pure function of the record, whose `result` list is only
read for the comparison. -/
theorem c10_sort_in_place :
    (∀ (r : Record) (vs sorted : List String),
        sortResults r vs = Except.ok sorted →
        r.result.length ≤ sorted.length →
        ∃ lg, verifyRows r vs = Except.ok (lg, sorted))
    ∧ (∀ (md5f : List String → String) (r : Record) (vs sorted : List String),
        sortResults r vs = Except.ok sorted →
        ∃ lg, verifyHash md5f r vs = Except.ok (lg, sorted)) := by
  constructor
  · intro r vs sorted hsort hle
    unfold verifyRows
    rw [hsort]
    dsimp only
    obtain ⟨lg, hlg⟩ := cmpResults_ok_of_le r.result sorted 0 hle
    rw [hlg]
    exact ⟨lg, rfl⟩
  · intro md5f r vs sorted hsort
    unfold verifyHash
    rw [hsort]
    dsimp only
    by_cases hh : hashResult r ≠ md5f sorted
    · rw [if_pos hh]
      exact ⟨_, rfl⟩
    · rw [if_neg hh]
      exact ⟨_, rfl⟩

theorem c10_sort_in_place_wit :
    ∃ lg, verifyRows c10rec ["2", "1"] = Except.ok (lg, ["1", "2"]) :=
  c10_sort_in_place.1 c10rec ["2", "1"] ["1", "2"] rfl (by decide)

/-! ## C8 -/

/-- C8 counterexample: in `c8lines` the only statement directive occurs
*after* the halt directive, so the claim predicts zero non-Halt records; but
`ParseTestFile` does not stop at halt — it emits the Halt record and keeps
parsing, producing one statement record. -/
theorem c8_cex_records_after_halt :
    parseTestFile c8lines = Except.ok [c8haltRec, c8stmtRec]
    ∧ nonHaltCount [c8haltRec, c8stmtRec] = 1
    ∧ c8stmtRec.recordType = RecordType.statement :=
  ⟨rfl, rfl, rfl⟩

theorem bump_eq_of_zero (k : Nat) (rec : Record) (h : rec.lineNum = 0) :
    bumpRecord k rec = rec := by
  unfold bumpRecord
  rw [if_pos h]

theorem bumpRecord_mk (k : Nat) (rt : RecordType) (ee : Bool) (cds : List Condition)
    (sch sm q : String) (lnum : Nat) (res : List String) (lab : String) (ht : Int) :
    bumpRecord k ⟨rt, ee, cds, sch, sm, q, lnum, res, lab, ht⟩ =
      ⟨rt, ee, cds, sch, sm, q, if lnum = 0 then lnum else lnum + k, res, lab, ht⟩ := by
  unfold bumpRecord
  by_cases h : lnum = 0 <;> simp [h]

theorem parseRecordLoop_shift (k : Nat) :
    ∀ (lines : List String) (ln : Nat) (st : PState) (rec : Record) (qb : String),
      (match parseRecordLoop lines ln st rec qb with
       | PResult.ok r rest2 ln2 =>
           parseRecordLoop lines (ln + k) st (bumpRecord k rec) qb =
             PResult.ok (bumpRecord k r) rest2 (ln2 + k)
       | PResult.eof =>
           parseRecordLoop lines (ln + k) st (bumpRecord k rec) qb = PResult.eof
       | PResult.fail _ => True) := by
  intro lines
  induction lines with
  | nil =>
    intro ln st rec qb
    obtain ⟨rt, ee, cds, sch, sm, q, lnum, res, lab, ht⟩ := rec
    by_cases hz : lnum = 0
    · subst hz
      simp [parseRecordLoop, bumpRecord_mk]
    · simp [parseRecordLoop, bumpRecord_mk, hz]
      by_cases hst : st = PState.inStatement
      · simp [hst, hz, bumpRecord_mk]
      · simp [hst, hz, bumpRecord_mk]
  | cons l rest ih =>
    intro ln st rec qb
    obtain ⟨rt, ee, cds, sch, sm, q, lnum, res, lab, ht⟩ := rec
    have harith : ln + 1 + k = ln + k + 1 := by omega
    by_cases hh : startsWithHash l = true
    · simp only [parseRecordLoop, hh, if_true]
      have hih := ih (ln + 1) st ⟨rt, ee, cds, sch, sm, q, lnum, res, lab, ht⟩ qb
      rw [harith] at hih
      exact hih
    · have hh' : startsWithHash l = false := by
        cases hx : startsWithHash l
        · rfl
        · exact absurd hx hh
      cases st with
      | start =>
        by_cases hb : isBlankLine l = true
        · simp only [parseRecordLoop, hh', hb, Bool.false_eq_true, if_false, if_true]
          have hih := ih (ln + 1) PState.start ⟨rt, ee, cds, sch, sm, q, lnum, res, lab, ht⟩ qb
          rw [harith] at hih
          exact hih
        · have hb' : isBlankLine l = false := by
            cases hx : isBlankLine l
            · rfl
            · exact absurd hx hb
          cases hf : goFields (stripComment l) with
          | nil =>
            simp only [parseRecordLoop, hh', hb', hf, Bool.false_eq_true, if_false]
          | cons f0 frest =>
            by_cases h0 : f0 = "halt"
            · subst h0
              simp [parseRecordLoop, hh', hb', hf, bumpRecord_mk, harith]
            · by_cases h1 : f0 = "skipif" ∨ f0 = "onlyif"
              · cases frest with
                | nil =>
                  simp only [parseRecordLoop, hh', hb', hf, h0, h1, Bool.false_eq_true,
                    if_false, if_true]
                | cons f1 frest2 =>
                  simp only [parseRecordLoop, hh', hb', hf, h0, h1, Bool.false_eq_true,
                    if_false, if_true, bumpRecord_mk]
                  have hih := ih (ln + 1) PState.start
                    ⟨rt, ee, cds ++ [Condition.mk (decide (f0 = "onlyif"))
                        (decide (f0 = "skipif")) f1],
                      sch, sm, q, lnum, res, lab, ht⟩ qb
                  rw [harith] at hih
                  simp only [bumpRecord_mk] at hih
                  exact hih
              · by_cases h2 : f0 = "hash-threshold"
                · subst h2
                  cases frest with
                  | nil =>
                    simp only [parseRecordLoop, hh', hb', hf, h0, h1, Bool.false_eq_true,
                      if_false, if_true]
                  | cons f1 frest2 =>
                    simp only [parseRecordLoop, hh', hb', hf, h0, h1, Bool.false_eq_true,
                      if_false, if_true, bumpRecord_mk]
                    have hih := ih (ln + 1) PState.start
                      ⟨rt, ee, cds, sch, sm, q, lnum, res, lab, atoi f1⟩ qb
                    rw [harith] at hih
                    simp only [bumpRecord_mk] at hih
                    exact hih
                · by_cases h3 : f0 = "statement"
                  · subst h3
                    cases frest with
                    | nil =>
                      simp only [parseRecordLoop, hh', hb', hf, h0, h1, h2,
                        Bool.false_eq_true, if_false, if_true]
                    | cons f1 frest2 =>
                      by_cases hok : f1 = "ok"
                      · subst hok
                        simp only [parseRecordLoop, hh', hb', hf, h0, h1, h2,
                          Bool.false_eq_true, if_false, if_true, bumpRecord_mk]
                        have hih := ih (ln + 1) PState.inStatement
                          ⟨RecordType.statement, false, cds, sch, sm, q, lnum, res, lab, ht⟩ qb
                        rw [harith] at hih
                        simp only [bumpRecord_mk] at hih
                        exact hih
                      · by_cases herr : f1 = "error"
                        · subst herr
                          simp only [parseRecordLoop, hh', hb', hf, h0, h1, h2, hok,
                            Bool.false_eq_true, if_false, if_true, bumpRecord_mk]
                          have hih := ih (ln + 1) PState.inStatement
                            ⟨RecordType.statement, true, cds, sch, sm, q, lnum, res, lab, ht⟩ qb
                          rw [harith] at hih
                          simp only [bumpRecord_mk] at hih
                          exact hih
                        · simp only [parseRecordLoop, hh', hb', hf, h0, h1, h2, hok, herr,
                            Bool.false_eq_true, if_false, if_true]
                  · by_cases h4 : f0 = "query"
                    · subst h4
                      cases frest with
                      | nil =>
                        simp only [parseRecordLoop, hh', hb', hf, h0, h1, h2, h3,
                          Bool.false_eq_true, if_false, if_true]
                      | cons f1 frest2 =>
                        cases frest2 with
                        | nil =>
                          simp only [parseRecordLoop, hh', hb', hf, h0, h1, h2, h3,
                            Bool.false_eq_true, if_false, if_true, bumpRecord_mk]
                          have hih := ih (ln + 1) PState.inQuery
                            ⟨RecordType.query, ee, cds, f1, sm, q, lnum, res, lab, ht⟩ qb
                          rw [harith] at hih
                          simp only [bumpRecord_mk] at hih
                          exact hih
                        | cons f2 frest3 =>
                          cases frest3 with
                          | nil =>
                            simp only [parseRecordLoop, hh', hb', hf, h0, h1, h2, h3,
                              Bool.false_eq_true, if_false, if_true, bumpRecord_mk]
                            have hih := ih (ln + 1) PState.inQuery
                              ⟨RecordType.query, ee, cds, f1, f2, q, lnum, res, lab, ht⟩ qb
                            rw [harith] at hih
                            simp only [bumpRecord_mk] at hih
                            exact hih
                          | cons f3 frest4 =>
                            simp only [parseRecordLoop, hh', hb', hf, h0, h1, h2, h3,
                              Bool.false_eq_true, if_false, if_true, bumpRecord_mk]
                            have hih := ih (ln + 1) PState.inQuery
                              ⟨RecordType.query, ee, cds, f1, f2, q, lnum, res, f3, ht⟩ qb
                            rw [harith] at hih
                            simp only [bumpRecord_mk] at hih
                            exact hih
                    · simp only [parseRecordLoop, hh', hb', hf, h0, h1, h2, h3, h4,
                        Bool.false_eq_true, if_false, if_true]
      | inStatement =>
        by_cases hb : isBlankLine l = true
        · simp [parseRecordLoop, hh', hb, bumpRecord_mk, harith]
        · have hb' : isBlankLine l = false := by
            cases hx : isBlankLine l
            · rfl
            · exact absurd hx hb
          by_cases hz : lnum = 0
          · subst hz
            simp only [parseRecordLoop, hh', hb', Bool.false_eq_true, if_false, if_true,
              bumpRecord_mk, if_pos rfl]
            have hih := ih (ln + 1) PState.inStatement
              ⟨rt, ee, cds, sch, sm, q, ln + 1, res, lab, ht⟩ (qb ++ stripComment l)
            rw [harith] at hih
            simp only [bumpRecord_mk] at hih
            have hif : (if ln + 1 = 0 then ln + 1 else ln + 1 + k) = ln + k + 1 := by
              rw [if_neg (by omega : ¬(ln + 1 = 0))]
              omega
            rw [hif] at hih
            exact hih
          · simp only [parseRecordLoop, hh', hb', Bool.false_eq_true, if_false, if_true,
              bumpRecord_mk, if_neg hz, hz]
            have hih := ih (ln + 1) PState.inStatement
              ⟨rt, ee, cds, sch, sm, q, lnum, res, lab, ht⟩ (qb ++ stripComment l)
            rw [harith] at hih
            simp only [bumpRecord_mk, if_neg hz, hz] at hih
            have hz2 : ¬(lnum + k = 0) := by omega
            simp only [hz2, if_neg, if_false] at hih ⊢
            exact hih
      | inQuery =>
        by_cases hsep : goFields (stripComment l) = [Separator]
        · by_cases hz : lnum = 0
          · subst hz
            simp only [parseRecordLoop, hh', hsep, Bool.false_eq_true, if_false, if_true,
              bumpRecord_mk, if_pos rfl]
            have hih := ih (ln + 1) PState.inResults
              ⟨rt, ee, cds, sch, sm, qb, ln + 1, res, lab, ht⟩ (qb ++ stripComment l)
            rw [harith] at hih
            simp only [bumpRecord_mk] at hih
            have hif : (if ln + 1 = 0 then ln + 1 else ln + 1 + k) = ln + k + 1 := by
              rw [if_neg (by omega : ¬(ln + 1 = 0))]
              omega
            rw [hif] at hih
            exact hih
          · simp only [parseRecordLoop, hh', hsep, Bool.false_eq_true, if_false, if_true,
              bumpRecord_mk, if_neg hz, hz]
            have hih := ih (ln + 1) PState.inResults
              ⟨rt, ee, cds, sch, sm, qb, lnum, res, lab, ht⟩ (qb ++ stripComment l)
            rw [harith] at hih
            simp only [bumpRecord_mk, if_neg hz, hz] at hih
            have hz2 : ¬(lnum + k = 0) := by omega
            simp only [hz2, if_neg, if_false] at hih ⊢
            exact hih
        · by_cases hb : isBlankLine l = true
          · by_cases hz : lnum = 0
            · subst hz
              simp [parseRecordLoop, hh', hsep, hb, bumpRecord_mk, harith]
            · simp [parseRecordLoop, hh', hsep, hb, bumpRecord_mk, harith, hz]
          · have hb' : isBlankLine l = false := by
              cases hx : isBlankLine l
              · rfl
              · exact absurd hx hb
            by_cases hz : lnum = 0
            · subst hz
              simp only [parseRecordLoop, hh', hsep, hb', Bool.false_eq_true, if_false,
                if_true, bumpRecord_mk, if_pos rfl]
              have hih := ih (ln + 1) PState.inQuery
                ⟨rt, ee, cds, sch, sm, q, ln + 1, res, lab, ht⟩ (qb ++ stripComment l)
              rw [harith] at hih
              simp only [bumpRecord_mk] at hih
              have hif : (if ln + 1 = 0 then ln + 1 else ln + 1 + k) = ln + k + 1 := by
                rw [if_neg (by omega : ¬(ln + 1 = 0))]
                omega
              rw [hif] at hih
              exact hih
            · simp only [parseRecordLoop, hh', hsep, hb', Bool.false_eq_true, if_false,
                if_true, bumpRecord_mk, if_neg hz, hz]
              have hih := ih (ln + 1) PState.inQuery
                ⟨rt, ee, cds, sch, sm, q, lnum, res, lab, ht⟩ (qb ++ stripComment l)
              rw [harith] at hih
              simp only [bumpRecord_mk, if_neg hz, hz] at hih
              have hz2 : ¬(lnum + k = 0) := by omega
              simp only [hz2, if_neg, if_false] at hih ⊢
              exact hih
      | inResults =>
        by_cases hb : isBlankLine l = true
        · simp [parseRecordLoop, hh', hb, bumpRecord_mk, harith]
        · have hb' : isBlankLine l = false := by
            cases hx : isBlankLine l
            · rfl
            · exact absurd hx hb
          simp only [parseRecordLoop, hh', hb', Bool.false_eq_true, if_false, if_true,
            bumpRecord_mk]
          have hih := ih (ln + 1) PState.inResults
            ⟨rt, ee, cds, sch, sm, q, lnum, res ++ [stripComment l], lab, ht⟩ qb
          rw [harith] at hih
          simp only [bumpRecord_mk] at hih
          exact hih

theorem bump_fresh (k : Nat) : bumpRecord k freshRecord = freshRecord := by
  unfold bumpRecord
  simp [freshRecord]

theorem parseRecord_shift_ok (k : Nat) (lines : List String) (ln : Nat) (r : Record)
    (rest2 : List String) (ln2 : Nat) (h : parseRecord lines ln = PResult.ok r rest2 ln2) :
    parseRecord lines (ln + k) = PResult.ok (bumpRecord k r) rest2 (ln2 + k) := by
  have hs := parseRecordLoop_shift k lines ln PState.start freshRecord ""
  unfold parseRecord at h ⊢
  rw [h] at hs
  rw [bump_fresh] at hs
  exact hs

theorem parseRecord_shift_eof (k : Nat) (lines : List String) (ln : Nat)
    (h : parseRecord lines ln = PResult.eof) :
    parseRecord lines (ln + k) = PResult.eof := by
  have hs := parseRecordLoop_shift k lines ln PState.start freshRecord ""
  unfold parseRecord at h ⊢
  rw [h] at hs
  rw [bump_fresh] at hs
  exact hs

theorem parseFileRawF_shift (k : Nat) :
    ∀ (fuel : Nat) (lines : List String) (ln : Nat) (raws : List Record),
      parseFileRawF fuel lines ln = Except.ok raws →
      parseFileRawF fuel lines (ln + k) = Except.ok (raws.map (bumpRecord k)) := by
  intro fuel
  induction fuel with
  | zero => intro lines ln raws h; cases h
  | succ fuel ihf =>
    intro lines ln raws h
    rw [parseFileRawF] at h ⊢
    cases hpr : parseRecord lines ln with
    | eof =>
      rw [hpr] at h
      dsimp only at h
      injection h with h'
      subst h'
      rw [parseRecord_shift_eof k lines ln hpr]
      rfl
    | fail e =>
      rw [hpr] at h
      dsimp only at h
      cases h
    | ok r rest2 ln2 =>
      rw [hpr] at h
      dsimp only at h
      cases hrec : parseFileRawF fuel rest2 ln2 with
      | error e => rw [hrec] at h; cases h
      | ok rs =>
        rw [hrec] at h
        injection h with h'
        subst h'
        rw [parseRecord_shift_ok k lines ln r rest2 ln2 hpr]
        dsimp only
        rw [ihf rest2 ln2 rs hrec]
        rfl

theorem bump_hashThreshold_proj (k : Nat) (rec : Record) :
    (bumpRecord k rec).hashThreshold = rec.hashThreshold := by
  obtain ⟨rt, ee, cds, sch, sm, q, lnum, res, lab, ht⟩ := rec
  rw [bumpRecord_mk]

theorem bump_recordType_proj (k : Nat) (rec : Record) :
    (bumpRecord k rec).recordType = rec.recordType := by
  obtain ⟨rt, ee, cds, sch, sm, q, lnum, res, lab, ht⟩ := rec
  rw [bumpRecord_mk]

theorem resolveList_map_bump (k : Nat) :
    ∀ (rs : List Record) (cur : Int),
      resolveList cur (rs.map (bumpRecord k)) = (resolveList cur rs).map (bumpRecord k) := by
  intro rs
  induction rs with
  | nil => intro cur; rfl
  | cons x xs ih =>
    intro cur
    obtain ⟨rt, ee, cds, sch, sm, q, lnum, res, lab, ht⟩ := x
    rw [List.map_cons, bumpRecord_mk, resolveList, resolveList]
    dsimp only
    rw [ih]
    rw [List.map_cons, bumpRecord_mk]

theorem nonHaltCount_map_bump (k : Nat) (rs : List Record) :
    nonHaltCount (rs.map (bumpRecord k)) = nonHaltCount rs := by
  induction rs with
  | nil => rfl
  | cons x xs ih =>
    rw [List.map_cons]
    unfold nonHaltCount at ih ⊢
    rw [List.filter_cons, List.filter_cons, bump_recordType_proj]
    by_cases hx : (x.recordType != RecordType.halt) = true
    · rw [if_pos hx, if_pos hx, List.length_cons, List.length_cons, ih]
    · rw [if_neg hx, if_neg hx, ih]

/-- C8 amended: `ParseTestFile` does not stop at a halt directive, so
directives after a halt contribute records exactly as they would without it:
prepending a `halt` line to any successfully parsed file yields the Halt
record followed by the very same records with their line numbers shifted by
one; in particular the number of non-Halt records is unchanged, not zero. -/
theorem c8_halt_does_not_stop_parsing (l2 : List String) (rs2 : List Record)
    (h : parseTestFile l2 = Except.ok rs2) :
    parseTestFile ("halt" :: l2) = Except.ok (c8haltRec :: rs2.map (bumpRecord 1))
    ∧ nonHaltCount (c8haltRec :: rs2.map (bumpRecord 1)) = nonHaltCount rs2 := by
  constructor
  · have heq1 : parseTestFile ("halt" :: l2) =
        (parseFileRawF (("halt" :: l2).length + 1) ("halt" :: l2) 0).map
          (resolveList defaultHashThreshold) :=
      parseFileLoopF_eq_raw _ _ 0 none
    have heq2 : parseTestFile l2 =
        (parseFileRawF (l2.length + 1) l2 0).map (resolveList defaultHashThreshold) :=
      parseFileLoopF_eq_raw _ _ 0 none
    rw [h] at heq2
    cases hraw : parseFileRawF (l2.length + 1) l2 0 with
    | error e => rw [hraw] at heq2; cases heq2
    | ok raws =>
      rw [hraw] at heq2
      have hrs2 : rs2 = resolveList defaultHashThreshold raws := by
        dsimp only [Except.map] at heq2
        injection heq2
      have hshift : parseFileRawF (l2.length + 1) l2 1 =
          Except.ok (raws.map (bumpRecord 1)) :=
        parseFileRawF_shift 1 (l2.length + 1) l2 0 raws hraw
      rw [heq1]
      have hlen : ("halt" :: l2).length + 1 = l2.length + 1 + 1 := by simp
      rw [hlen]
      rw [parseFileRawF]
      have hpr : parseRecord ("halt" :: l2) 0 =
          PResult.ok ⟨RecordType.halt, false, [], "", "", "", 1, [], "", hashThresholdUnset⟩
            l2 1 := rfl
      rw [hpr]
      dsimp only
      rw [hshift]
      dsimp only [Except.map]
      rw [hrs2]
      rw [resolveList]
      dsimp only
      rw [resolveList_map_bump]
      norm_num [hashThresholdUnset]
      rfl
  · calc nonHaltCount (c8haltRec :: rs2.map (bumpRecord 1))
        = nonHaltCount (rs2.map (bumpRecord 1)) := by
          unfold nonHaltCount
          rw [List.filter_cons, if_neg (by decide)]
      _ = nonHaltCount rs2 := nonHaltCount_map_bump 1 rs2

theorem c8_halt_does_not_stop_parsing_wit :
    parseTestFile ("halt" :: c8wLines) = Except.ok (c8haltRec :: [c8wRec].map (bumpRecord 1))
    ∧ nonHaltCount (c8haltRec :: [c8wRec].map (bumpRecord 1)) = nonHaltCount [c8wRec] :=
  c8_halt_does_not_stop_parsing c8wLines [c8wRec] rfl
